import Mathlib

/-!
Verification of the yeet service-manager daemon against its specification.

Each section embeds the Go functions named in a claim as executable Lean
definitions, translated directly from the source files, and proves or refutes
the corresponding specified property.  External collaborators (the tailscale
client, the filesystem, the YAML and TypeScript parsers, the docker CLI) are
modelled as explicit parameters recording their observable outcome, exactly at
the points where the Go code consults them.
-/

namespace Yeet

/-! ### Rollback (`rollbackCmdFunc`, `src/pkg/catch/tty.go` lines 500-526)

`rollbackCmdFunc` runs a closure under `DB.MutateService`; per the store
contract the mutation is aborted (state unchanged) when the closure returns an
error, so the closure is embedded as a function from the service record to
`Except String Service`. -/

/-- The fields of `db.Service` read and written by `rollbackCmdFunc`. -/
structure Service where
  Generation : Int
  LatestGeneration : Int
deriving DecidableEq, Repr

/-- Modelled from the spec: the constant `maxGenerations` used by
`rollbackCmdFunc` is declared in a file of this repository that is not in the
provided sources.  The spec says rollback may point to any generation in
`[latest_generation - N + 1, latest_generation]` (N the retention window) and
that it is an error to rollback below `latest_generation - N + 1`; the code
errors when the target is below `LatestGeneration - maxGenerations`, so
`maxGenerations = N - 1`. -/
def maxGenerations (N : Int) : Int := N - 1

/-- The mutation closure of `rollbackCmdFunc` (`src/pkg/catch/tty.go`
lines 501-515), with the local variables `minG := LatestGeneration - maxGens`
and `gen := Generation - 1` inlined.  An `Except.error` result means
`MutateService` aborts and the stored service is unchanged. -/
def rollbackCmdFunc (maxGens : Int) (s : Service) : Except String Service :=
  if s.Generation = 0 then .error "no generation to rollback"
  else if s.Generation - 1 < s.LatestGeneration - maxGens then
    .error "generation is too old"
  else if s.Generation - 1 = 0 then
    .error "generation is the oldest, cannot rollback"
  else .ok { s with Generation := s.Generation - 1 }

/-- C1 (counterexample): with retention window N = 10, a service at
generation 1 with latest generation 1 satisfies the claimed success condition
`generation > latest - N + 1`, yet `rollbackCmdFunc` returns an error, because
the code additionally refuses to roll back to generation 0. -/
theorem c1_rollback_counterexample :
    ((1 : Int) > 1 - 10 + 1) ∧
      (rollbackCmdFunc (maxGenerations 10)
        { Generation := 1, LatestGeneration := 1 }).isOk = false := by
  constructor
  · decide
  · rfl

/-- Helper: `isOk` of an ok value. -/
theorem exceptIsOk_ok {α : Type} (a : α) :
    (Except.ok (ε := String) a).isOk = true := rfl

/-- Helper: `isOk` of an error value. -/
theorem exceptIsOk_error {α : Type} (e : String) :
    (Except.error (α := α) e).isOk = false := rfl

/-- C1 (amended): rollback succeeds if and only if
`generation > latest_generation - N + 1` AND the current generation is at
least 2 (the code separately rejects `Generation = 0` and a rollback target of
generation 0); on success the generation decreases by exactly one and the
latest generation is unchanged.  On error the store mutation is aborted, so
the generation is unchanged. -/
theorem c1_rollback_amended (N : Int) (s : Service) :
    ((rollbackCmdFunc (maxGenerations N) s).isOk = true ↔
      (s.Generation > s.LatestGeneration - N + 1 ∧
        s.Generation ≠ 0 ∧ s.Generation ≠ 1)) ∧
    (∀ t, rollbackCmdFunc (maxGenerations N) s = .ok t →
      t.Generation = s.Generation - 1 ∧
        t.LatestGeneration = s.LatestGeneration) := by
  unfold rollbackCmdFunc maxGenerations
  constructor
  · split_ifs with h0 hold hz
    · rw [exceptIsOk_error]
      constructor
      · intro h; cases h
      · rintro ⟨-, h, -⟩; exact absurd h0 h
    · rw [exceptIsOk_error]
      constructor
      · intro h; cases h
      · rintro ⟨hgt, -, -⟩; omega
    · rw [exceptIsOk_error]
      constructor
      · intro h; cases h
      · rintro ⟨-, -, h1⟩; omega
    · rw [exceptIsOk_ok]
      refine iff_of_true rfl ⟨by omega, h0, by omega⟩
  · intro t ht
    split_ifs at ht with h0 hold hz
    injection ht with hteq
    rw [← hteq]
    exact ⟨rfl, rfl⟩

/-- C1 (witness): a service at generation 3, latest 3, with N = 10 rolls back
successfully. -/
theorem c1_rollback_amended_witness :
    (rollbackCmdFunc (maxGenerations 10)
      { Generation := 3, LatestGeneration := 3 }).isOk = true :=
  (c1_rollback_amended 10 { Generation := 3, LatestGeneration := 3 }).1.mpr
    (by refine ⟨by norm_num, by decide, by decide⟩)

/-! ### Caller authorization (`verifyCaller`, `src/pkg/catch/catch.go`
lines 246-269)

The tailscale status and whois lookups are modelled by their results: the
local node status (tags and user id) and the peer node (tags and user id); a
node is tagged when its tag list is non-empty, as in tailscale. -/

/-- The peer node fields consulted by `verifyCaller` (`who.Node`). -/
structure Node where
  Tags : List String
  User : Int
deriving DecidableEq, Repr

/-- The local node fields consulted by `verifyCaller` (`st.Self`). -/
structure SelfStatus where
  Tags : List String
  UserID : Int
deriving DecidableEq, Repr

/-- `Node.IsTagged` from the tailscale library: a node is tagged iff it has at
least one tag. -/
def Node.IsTagged (n : Node) : Bool := !n.Tags.isEmpty

/-- `PeerStatus.IsTagged` for the local node. -/
def SelfStatus.IsTagged (s : SelfStatus) : Bool := !s.Tags.isEmpty

/-- `overlaps` (`src/pkg/catch/catch.go` lines 227-234). -/
def overlaps (a b : List String) : Bool :=
  a.any fun x => b.contains x

/-- `verifyCaller` (`src/pkg/catch/catch.go` lines 246-269), after the status
and whois lookups have succeeded. -/
def verifyCaller (self : SelfStatus) (who : Node) : Except String Unit :=
  if who.IsTagged then
    if self.IsTagged && overlaps who.Tags self.Tags then .ok ()
    else .error "unauthorized connection"
  else if self.IsTagged then .ok ()
  else if self.UserID = who.User then .ok ()
  else .error "unauthorized connection"

/-- C2 (counterexample): the local node is untagged and the peer is tagged,
yet `verifyCaller` rejects the connection; the claim says every tagged peer is
allowed when the local node is untagged. -/
theorem c2_verifyCaller_counterexample :
    (SelfStatus.IsTagged { Tags := [], UserID := 1 }) = false ∧
    (Node.IsTagged { Tags := ["tag:prod"], User := 2 }) = true ∧
    (verifyCaller { Tags := [], UserID := 1 }
      { Tags := ["tag:prod"], User := 2 }).isOk = false := by
  refine ⟨rfl, rfl, rfl⟩

/-- C2 (amended): when the local node is untagged, the caller is allowed if
and only if the peer is untagged and the peer user id equals the local user
id; in particular every tagged peer is rejected when the local node is
untagged. -/
theorem c2_verifyCaller_amended (self : SelfStatus) (who : Node)
    (h : self.IsTagged = false) :
    (verifyCaller self who).isOk = true ↔
      (who.IsTagged = false ∧ self.UserID = who.User) := by
  unfold verifyCaller
  rcases hw : who.IsTagged with _ | _
  · simp only [hw, Bool.false_eq_true, if_false, h, if_true]
    split_ifs with hu
    · rw [exceptIsOk_ok]
      exact iff_of_true rfl ⟨trivial, hu⟩
    · rw [exceptIsOk_error]
      constructor
      · intro hc; cases hc
      · rintro ⟨-, hc⟩; exact absurd hc hu
  · simp only [hw, if_true, h, Bool.false_and]
    simp only [Bool.false_eq_true, if_false]
    rw [exceptIsOk_error]
    constructor
    · intro hc; cases hc
    · rintro ⟨hc, -⟩; cases hc

/-- C2 (witness): an untagged local node accepts an untagged peer with the
same user id. -/
theorem c2_verifyCaller_amended_witness :
    (verifyCaller { Tags := [], UserID := 7 }
      { Tags := [], User := 7 }).isOk = true :=
  (c2_verifyCaller_amended { Tags := [], UserID := 7 }
    { Tags := [], User := 7 } rfl).mpr ⟨rfl, rfl⟩

/-! ### Status aggregation (`statusToState`,
`src/pkg/catch/web/lib/status.js` lines 26-50)

The JS `State` enum has six values; a sixth value (`partial`) never occurs as
a component status: components carry a `ComponentStatus`
(`src/unnamed/part_019` lines 33-37), which has exactly five values. -/

/-- The JS `State` enum from `status.js` (the value `"partial"` is the
constructor `partialState`). -/
inductive State where
  | running
  | starting
  | stopping
  | stopped
  | partialState
  | unknown
deriving DecidableEq, Repr

/-- The Go `ComponentStatus` values (`src/unnamed/part_019` lines 33-37): the
possible statuses of a single component. -/
inductive ComponentStatus where
  | starting
  | running
  | stopping
  | stopped
  | unknown
deriving DecidableEq, Repr

/-- The JS `State` string carried by a `ComponentStatusData` entry, as decoded
by `status.js` (both sides are the literal strings "starting", "running", …).
-/
def ComponentStatus.toState : ComponentStatus → State
  | .starting => .starting
  | .running => .running
  | .stopping => .stopping
  | .stopped => .stopped
  | .unknown => .unknown

/-- `statusToState` (`src/pkg/catch/web/lib/status.js` lines 26-50), on the
list of component states.  `uniqueStates` (a JS `Set`) has size 1 exactly when
the deduplicated list has length 1, and `states[0]` is the list head. -/
def statusToState (states : List State) : State :=
  if State.stopping ∈ states then .stopping
  else if State.starting ∈ states then .starting
  else if states.dedup.length = 1 then
    match states.head? with
    | some .running => .running
    | some .stopped => .stopped
    | _ => .unknown
  else .partialState

/-- The aggregation rule in the words of the spec: `stopping` if any is
stopping; else `starting` if any is starting; else the unique common state if
any; else `partial`.  This is the spec side of the refinement proved in
`c8_statusToState`. -/
def specAggregate (states : List State) : State :=
  if State.stopping ∈ states then .stopping
  else if State.starting ∈ states then .starting
  else
    match states.dedup with
    | [s] => s
    | _ => .partialState

/-- Helper: the JS `State` of a component status is never `partialState`. -/
theorem componentStatus_toState_ne (c : ComponentStatus) :
    c.toState ≠ State.partialState := by
  cases c <;> simp [ComponentStatus.toState]

/-- C8: for every non-empty list of component states, the JS aggregator
`statusToState` computes exactly the spec rule: `stopping` if any component is
stopping; else `starting` if any is starting; else the unique common state if
all agree; else `partial`. -/
theorem c8_statusToState (l : List ComponentStatus) (h : l ≠ []) :
    statusToState (l.map ComponentStatus.toState) =
      specAggregate (l.map ComponentStatus.toState) := by
  unfold statusToState specAggregate
  split_ifs with h1 h2 hlen
  · rfl
  · rfl
  · obtain ⟨s, hs⟩ := List.length_eq_one.mp hlen
    rw [hs]
    have hmem : s ∈ l.map ComponentStatus.toState := by
      have : s ∈ (l.map ComponentStatus.toState).dedup := by
        rw [hs]; exact List.mem_singleton_self s
      exact List.mem_dedup.mp this
    have hne : l.map ComponentStatus.toState ≠ [] := by
      intro hnil
      exact h (List.map_eq_nil_iff.mp hnil)
    obtain ⟨a, rest, hcons⟩ := List.exists_cons_of_ne_nil hne
    have hha : (l.map ComponentStatus.toState).head? = some a := by
      rw [hcons]; rfl
    have haeq : a = s := by
      have ha_mem : a ∈ (l.map ComponentStatus.toState).dedup := by
        apply List.mem_dedup.mpr
        rw [hcons]; exact List.mem_cons_self a rest
      rw [hs] at ha_mem
      exact List.mem_singleton.mp ha_mem
    rw [hha, haeq]
    have hs_not_stopping : s ≠ State.stopping := fun hcontra => h1 (hcontra ▸ hmem)
    have hs_not_starting : s ≠ State.starting := fun hcontra => h2 (hcontra ▸ hmem)
    have hs_not_partial : s ≠ State.partialState := by
      obtain ⟨c, -, hc⟩ := List.mem_map.mp hmem
      exact hc ▸ componentStatus_toState_ne c
    cases s with
    | running => rfl
    | starting => exact absurd rfl hs_not_starting
    | stopping => exact absurd rfl hs_not_stopping
    | stopped => rfl
    | partialState => exact absurd rfl hs_not_partial
    | unknown => rfl
  · rcases hd : (l.map ComponentStatus.toState).dedup with - | ⟨a, - | ⟨b, t⟩⟩
    · rfl
    · exact absurd (by rw [hd]; rfl) hlen
    · rfl

/-- C8 (witness): a single running component aggregates identically under the
code and the spec rule (both give `running`). -/
theorem c8_statusToState_witness :
    statusToState ([ComponentStatus.running].map ComponentStatus.toState) =
      specAggregate ([ComponentStatus.running].map ComponentStatus.toState) :=
  c8_statusToState [ComponentStatus.running] (by decide)

/-! ### Registry HTTP authorization (`containerRegistry.ServeHTTP`,
`src/unnamed/part_018` lines 64-82) -/

/-- HTTP methods distinguished by `ServeHTTP`. -/
inductive Method where
  | GET
  | HEAD
  | OPTIONS
  | POST
  | PUT
  | DELETE
  | PATCH
deriving DecidableEq, Repr

/-- The observable inputs of one registry request: whether `RemoteAddr`
parses, whether the parsed address is loopback, the method, and the outcome of
`verifyCaller`. -/
structure RegistryRequest where
  remoteAddrParses : Bool
  isLoopback : Bool
  method : Method
  verifyCallerOk : Bool
deriving DecidableEq, Repr

/-- The three possible dispositions of a registry request. -/
inductive RegistryResponse where
  | methodNotAllowed
  | unauthorized
  | forwarded
deriving DecidableEq, Repr

/-- `containerRegistry.ServeHTTP` (`src/unnamed/part_018` lines 64-82):
unparseable remote address → 405; loopback caller → 405 unless the method is
GET/HEAD/OPTIONS; non-loopback caller → 401 unless `verifyCaller` accepts;
otherwise the request is forwarded to the embedded registry handler. -/
def containerRegistryServeHTTP (r : RegistryRequest) : RegistryResponse :=
  if r.remoteAddrParses = false then .methodNotAllowed
  else if r.isLoopback then
    if r.method ≠ .GET ∧ r.method ≠ .HEAD ∧ r.method ≠ .OPTIONS then
      .methodNotAllowed
    else .forwarded
  else if r.verifyCallerOk = false then .unauthorized
  else .forwarded

/-- C5: a non-loopback caller that fails the authorizer check receives 401
regardless of method, and a loopback caller using a non-read method (anything
other than GET/HEAD/OPTIONS) receives 405 and is not forwarded to the
registry. -/
theorem c5_registry_authz (r : RegistryRequest) :
    (r.remoteAddrParses = true → r.isLoopback = false →
      r.verifyCallerOk = false →
        containerRegistryServeHTTP r = .unauthorized) ∧
    (r.remoteAddrParses = true → r.isLoopback = true →
      r.method ≠ .GET → r.method ≠ .HEAD → r.method ≠ .OPTIONS →
        containerRegistryServeHTTP r = .methodNotAllowed ∧
          containerRegistryServeHTTP r ≠ .forwarded) := by
  obtain ⟨p, lb, m, ok⟩ := r
  constructor
  · rintro rfl rfl rfl
    rfl
  · rintro rfl rfl hg hh ho
    refine ⟨?_, ?_⟩ <;>
      · cases m <;>
          simp_all [containerRegistryServeHTTP]
/-- C5 (witness): a non-loopback unauthorized PUT gets 401, and a loopback
POST gets 405 without forwarding. -/
theorem c5_registry_authz_witness :
    containerRegistryServeHTTP
        { remoteAddrParses := true, isLoopback := false,
          method := .PUT, verifyCallerOk := false } = .unauthorized ∧
      containerRegistryServeHTTP
        { remoteAddrParses := true, isLoopback := true,
          method := .POST, verifyCallerOk := true } = .methodNotAllowed :=
  ⟨(c5_registry_authz _).1 rfl rfl rfl,
    ((c5_registry_authz _).2 rfl rfl (by decide) (by decide) (by decide)).1⟩

/-! ### Event bus publication (`PublishEvent`, `src/pkg/catch/catch.go`
lines 114-125; listener registration `handleEvents`, `src/unnamed/part_016`
lines 225-247)

A Go channel is modelled by its capacity, its current queue length, and
whether a receiver is currently blocked on it; a send can complete
immediately exactly when the buffer has room or a receiver is waiting.
`PublishEvent` performs, for each listener whose filter accepts the event,
the statement `el.ch <- event` — an unconditional send with no
`select`/`default` branch. -/

/-- A Go channel of events, as seen by a sender. -/
structure EventChan where
  cap : Nat
  len : Nat
  receiverWaiting : Bool
deriving DecidableEq, Repr

/-- A send on a Go channel can complete immediately iff the buffer has room
or a receiver is waiting. -/
def canAccept (c : EventChan) : Bool :=
  decide (c.len < c.cap) || c.receiverWaiting

/-- What happens to the publisher at one listener during `PublishEvent`:
either the filter rejects the event (`skipped`), or the send completes
(`delivered`), or the event is discarded with the publisher continuing
(`dropped` — the behavior the spec describes), or the send cannot complete
and the publisher waits (`blocked`). -/
inductive PublishOutcome where
  | skipped
  | delivered
  | dropped
  | blocked
deriving DecidableEq, Repr

/-- The per-listener body of the `PublishEvent` loop (`src/pkg/catch/catch.go`
lines 119-124): skip the listener when its filter rejects the event,
otherwise perform the unconditional send `el.ch <- event`.  There is no
`select` with a `default` branch, so a channel that cannot accept the event
blocks the publisher (which at that point holds the listener-set mutex); no
branch of the code discards the event. -/
def publishToListener (filterAccepts : Bool) (c : EventChan) : PublishOutcome :=
  if filterAccepts = false then .skipped
  else if canAccept c then .delivered
  else .blocked

/-- C3 (counterexample): the listener registered by `handleEvents` uses an
unbuffered channel (`make(chan Event)`, capacity 0) and an always-true
filter; when its receiver is not at the channel, `PublishEvent` blocks the
publisher instead of dropping the event, contradicting the claim that a
publish never blocks and a slow listener's event is dropped silently. -/
theorem c3_publish_counterexample :
    publishToListener true { cap := 0, len := 0, receiverWaiting := false } =
        PublishOutcome.blocked ∧
      publishToListener true { cap := 0, len := 0, receiverWaiting := false } ≠
        PublishOutcome.dropped := by
  decide

/-- C3 (amended): `PublishEvent` never drops an event: for each listener
whose filter accepts the event it performs an unconditional send, which
blocks the publisher exactly when the listener's channel cannot accept the
event, and completes otherwise. -/
theorem c3_publish_amended (filterAccepts : Bool) (c : EventChan) :
    publishToListener filterAccepts c ≠ PublishOutcome.dropped ∧
      (publishToListener filterAccepts c = PublishOutcome.blocked ↔
        (filterAccepts = true ∧ canAccept c = false)) := by
  unfold publishToListener
  rcases filterAccepts with _ | _
  · simp
  · rcases hc : canAccept c with _ | _ <;> simp [hc]

/-- C3 (witness): with an accepting filter and a full unbuffered channel, the
publisher blocks. -/
theorem c3_publish_amended_witness :
    publishToListener true { cap := 0, len := 0, receiverWaiting := false } =
      PublishOutcome.blocked :=
  (c3_publish_amended true { cap := 0, len := 0, receiverWaiting := false }).2.mpr
    ⟨rfl, rfl⟩

/-! ### Service removal (`RemoveService`, `src/pkg/catch/catch.go`
lines 596-650)

External effects are modelled by their observable outcomes: the
`IsServiceRunning` probe (`none` when the probe itself errored, in which case
the code only logs and proceeds), the list of entry base names under the
service root returned by `filepath.Glob`, whether `serviceView` succeeds and
the service records a tailscale device, and the result of the tailscale
`DeleteDevice` call (a 404 is only logged).  Filesystem removals and the
store mutation are assumed to succeed. -/

/-- Outcome of the tailscale `DeleteDevice` call. -/
inductive TsDeleteResult where
  | ok
  | notFound
  | failed
deriving DecidableEq, Repr

/-- The event types of `catch.EventType` (`src/pkg/catch/catch.go`
lines 84-92). -/
inductive EventType where
  | Unknown
  | Heartbeat
  | ServiceStatusChanged
  | ServiceDeleted
  | ServiceCreated
  | ServiceConfigChanged
  | ServiceConfigStaged
deriving DecidableEq, Repr

/-- The environment a `RemoveService` call observes. -/
structure RemoveEnv where
  runningCheck : Option Bool
  dirEntries : List String
  serviceInDB : Bool
  hasTSDevice : Bool
  tsDelete : TsDeleteResult
deriving DecidableEq, Repr

/-- What a `RemoveService` call did: its result, the base names of removed
service-root entries, whether the service entry was removed from the store,
and the events published. -/
structure RemoveOutcome where
  result : Except String Unit
  removedDirs : List String
  serviceRemoved : Bool
  events : List EventType
deriving Repr

/-- `RemoveService` (`src/pkg/catch/catch.go` lines 598-650): refuse when the
service is detected running; otherwise delete every service-root entry except
`data`, then (when the service records a tailscale device) delete the device
— a failure other than 404 aborts with an error — then remove the service
from the store and publish `ServiceDeleted`. -/
def RemoveService (e : RemoveEnv) : RemoveOutcome :=
  if e.runningCheck = some true then
    { result := .error "service is not stopped", removedDirs := [],
      serviceRemoved := false, events := [] }
  else
    let removed := e.dirEntries.filter (fun d => d ≠ "data")
    if e.serviceInDB ∧ e.hasTSDevice ∧ e.tsDelete = .failed then
      { result := .error "failed to delete tailscale device",
        removedDirs := removed, serviceRemoved := false, events := [] }
    else
      { result := .ok (), removedDirs := removed, serviceRemoved := true,
        events := [.ServiceDeleted] }

/-- C7: if the service is detected running, `RemoveService` returns an error
and changes no state; if it is detected not running (and the tailscale device
cleanup, when applicable, does not fail), it removes exactly the service-root
entries other than `data`, removes the service entry from the store, and
publishes exactly one `ServiceDeleted` event. -/
theorem c7_removeService (e : RemoveEnv) :
    (e.runningCheck = some true →
      (RemoveService e).result.isOk = false ∧
        (RemoveService e).removedDirs = [] ∧
        (RemoveService e).serviceRemoved = false ∧
        (RemoveService e).events = []) ∧
    (e.runningCheck = some false →
      (e.hasTSDevice = true → e.tsDelete ≠ .failed) →
        (RemoveService e).result.isOk = true ∧
        (RemoveService e).removedDirs =
          e.dirEntries.filter (fun d => d ≠ "data") ∧
        "data" ∉ (RemoveService e).removedDirs ∧
        (∀ d ∈ e.dirEntries, d ≠ "data" →
          d ∈ (RemoveService e).removedDirs) ∧
        (RemoveService e).serviceRemoved = true ∧
        (RemoveService e).events = [EventType.ServiceDeleted]) := by
  constructor
  · intro hrun
    unfold RemoveService
    rw [if_pos hrun]
    exact ⟨rfl, rfl, rfl, rfl⟩
  · intro hrun hts
    unfold RemoveService
    have hneq : ¬e.runningCheck = some true := by
      rw [hrun]; intro hcontra; cases hcontra
    rw [if_neg hneq]
    have hguard : ¬(e.serviceInDB = true ∧ e.hasTSDevice = true ∧
        e.tsDelete = .failed) := by
      rintro ⟨-, hdev, hfail⟩
      exact hts hdev hfail
    rw [if_neg hguard]
    refine ⟨rfl, rfl, ?_, ?_, rfl, rfl⟩
    · intro hmem
      have := (List.mem_filter.mp hmem).2
      simp at this
    · intro d hd hne
      exact List.mem_filter.mpr ⟨hd, by simpa using hne⟩

/-- C7 (witness): a stopped service with entries `bin`, `run`, `data` and no
tailscale device has `bin` and `run` removed, `data` kept, its entry removed,
and one `ServiceDeleted` event. -/
theorem c7_removeService_witness :
    (RemoveService
      { runningCheck := some false, dirEntries := ["bin", "run", "data"],
        serviceInDB := true, hasTSDevice := false,
        tsDelete := .ok }).removedDirs = ["bin", "run"] ∧
    (RemoveService
      { runningCheck := some false, dirEntries := ["bin", "run", "data"],
        serviceInDB := true, hasTSDevice := false,
        tsDelete := .ok }).events = [EventType.ServiceDeleted] := by
  have h := (c7_removeService
    { runningCheck := some false, dirEntries := ["bin", "run", "data"],
      serviceInDB := true, hasTSDevice := false, tsDelete := .ok }).2
    rfl (by intro hdev; cases hdev)
  exact ⟨by rw [h.2.1]; rfl, h.2.2.2.2.2⟩

/-! ### Manifest writes (`SetManifest`, `src/unnamed/part_018` lines 197-304)

The repo's ref table (`db.ImageRepo.Refs`, a Go map) is modelled as a
function from ref name to optional manifest record, and the store's image
index as a function from repo name to optional ref table.  `storeManifest`
(sha256 content-addressing on disk) is modelled by its result: the hash
string on success, or `none` on failure (in which case the code returns with
the store untouched).  The `FileInstaller` the code then feeds a compose file
to is modelled by the request it is created with (service name and the
`StageOnly` flag). -/

/-- `db.ImageManifest`: what a ref points at. -/
structure ImageManifest where
  ContentType : String
  BlobHash : String
deriving DecidableEq, Repr

/-- `registry.Manifest`: the incoming manifest of a PUT. -/
structure RegManifest where
  ContentType : String
  Blob : String
deriving DecidableEq, Repr

/-- A repo's ref table (`db.ImageRepo.Refs`). -/
def RefTable : Type := String → Option ImageManifest

/-- The store's image index (`db.Data.Images`). -/
def ImagesMap : Type := String → Option RefTable

/-- Go map assignment `refs[name] = m`. -/
def updateRef (refs : RefTable) (name : String) (m : ImageManifest) : RefTable :=
  fun r => if r = name then some m else refs r

/-- The installer request `SetManifest` constructs
(`src/unnamed/part_018` lines 261-268). -/
structure InstallRequest where
  ServiceName : String
  StageOnly : Bool
deriving DecidableEq, Repr

/-- The outcome of a `SetManifest` call: the updated image index and the
installer request it triggered, if any. -/
structure SetManifestResult where
  images : ImagesMap
  installReq : Option InstallRequest

/-- `strings.Cut(s, sep)` for a single-character separator, on the character
list: the part before the first separator and the part after it, or `none`
when the separator does not occur. -/
def cutChar (c : Char) : List Char → Option (List Char × List Char)
  | [] => none
  | a :: rest =>
    if a = c then some ([], rest)
    else
      match cutChar c rest with
      | some (x, y) => some (a :: x, y)
      | none => none

/-- `strings.Count(s, sub)` for a single-character substring, on the
character list. -/
def countChar (c : Char) (l : List Char) : Nat :=
  (l.filter (fun a => a = c)).length

/-- Helper: a list with no occurrence of `c` is not cut by `c`. -/
theorem cutChar_eq_none_of_count_zero (c : Char) (l : List Char)
    (h : countChar c l = 0) : cutChar c l = none := by
  induction l with
  | nil => rfl
  | cons a rest ih =>
    by_cases hac : a = c
    · exfalso
      simp [countChar, List.filter_cons, hac] at h
    · have hrest : countChar c rest = 0 := by
        simpa [countChar, List.filter_cons, hac] using h
      unfold cutChar
      rw [if_neg hac, ih hrest]

/-- Helper: a list with exactly one occurrence of `c` is cut by `c` into two
`c`-free parts. -/
theorem cutChar_of_count_one (c : Char) (l : List Char)
    (h : countChar c l = 1) :
    ∃ x y, cutChar c l = some (x, y) ∧ countChar c x = 0 ∧ countChar c y = 0 := by
  induction l with
  | nil => simp [countChar] at h
  | cons a rest ih =>
    by_cases hac : a = c
    · have hrest : countChar c rest = 0 := by
        simpa [countChar, List.filter_cons, hac] using h
      refine ⟨[], rest, ?_, rfl, hrest⟩
      unfold cutChar
      rw [if_pos hac]
    · have hrest : countChar c rest = 1 := by
        simpa [countChar, List.filter_cons, hac] using h
      obtain ⟨x, y, hcut, hx, hy⟩ := ih hrest
      refine ⟨a :: x, y, ?_, ?_, hy⟩
      · unfold cutChar
        rw [if_neg hac, hcut]
      · simpa [countChar, List.filter_cons, hac] using hx

/-- `strings.Count(repo, sl)` where `sl` is the slash character. -/
def countSlash (s : String) : Nat := countChar (Char.ofNat 47) s.toList

/-- `strings.Cut(repo, sl)`: the service part and the container part of a
repo name. -/
def cutRepo (s : String) : Option (String × String) :=
  match cutChar (Char.ofNat 47) s.toList with
  | some (x, y) => some (String.mk x, String.mk y)
  | none => none

/-- `SetManifest` (`src/unnamed/part_018` lines 197-304): reject repo names
without exactly one slash; map the tag to the stored references (`run` →
`run` and `staged` with a commit install, `latest` → `staged` only, anything
else verbatim); store the manifest blob; write every mapped ref; and hand the
service to a `FileInstaller` whose `StageOnly` flag is the negation of
`shouldInstall`. -/
def SetManifest (images : ImagesMap) (repo tag : String)
    (manifest : RegManifest) (storeResult : Option String) :
    SetManifestResult :=
  if countSlash repo ≠ 1 then { images := images, installReq := none }
  else
    match cutRepo repo with
    | none => { images := images, installReq := none }
    | some (svcName, container) =>
      if countSlash container ≠ 0 then
        { images := images, installReq := none }
      else
        let refsAndInstall : List String × Bool :=
          if tag = "run" then (["run", "staged"], true)
          else if tag = "latest" then (["staged"], false)
          else ([tag], false)
        let ir : RefTable :=
          match images repo with
          | some refs => refs
          | none => fun _ => none
        match storeResult with
        | none => { images := images, installReq := none }
        | some mh =>
          let newRefs := refsAndInstall.1.foldl
            (fun acc r => updateRef acc r
              { ContentType := manifest.ContentType, BlobHash := mh }) ir
          { images := fun rn => if rn = repo then some newRefs else images rn,
            installReq := some
              { ServiceName := svcName, StageOnly := !refsAndInstall.2 } }

/-- Lookup of a ref in the image index after (or before) a write. -/
def refLookup (images : ImagesMap) (repo r : String) : Option ImageManifest :=
  match images repo with
  | some refs => refs r
  | none => none

/-- C4: for a well-formed repo name (exactly one slash) and a successfully
stored manifest blob: tag `latest` writes exactly the ref `staged`, pointing
at the stored manifest, leaves every other ref as it was (in particular no
`run` ref is produced by the write), and triggers a stage-only install; tag
`run` writes both `staged` and `run` to the stored manifest and triggers a
commit (non-stage-only) install; any other tag writes exactly that ref
verbatim. -/
theorem c4_setManifest (images : ImagesMap) (repo tag : String)
    (m : RegManifest) (h : String) (hrepo : countSlash repo = 1) :
    (tag = "latest" →
      refLookup (SetManifest images repo tag m (some h)).images repo "staged" =
          some { ContentType := m.ContentType, BlobHash := h } ∧
        (∀ r, r ≠ "staged" →
          refLookup (SetManifest images repo tag m (some h)).images repo r =
            refLookup images repo r) ∧
        (SetManifest images repo tag m (some h)).installReq =
          some { ServiceName :=
              (match cutRepo repo with
                | some p => p.1
                | none => repo), StageOnly := true }) ∧
    (tag = "run" →
      refLookup (SetManifest images repo tag m (some h)).images repo "staged" =
          some { ContentType := m.ContentType, BlobHash := h } ∧
        refLookup (SetManifest images repo tag m (some h)).images repo "run" =
          some { ContentType := m.ContentType, BlobHash := h } ∧
        (∀ r, r ≠ "staged" → r ≠ "run" →
          refLookup (SetManifest images repo tag m (some h)).images repo r =
            refLookup images repo r) ∧
        (SetManifest images repo tag m (some h)).installReq =
          some { ServiceName :=
              (match cutRepo repo with
                | some p => p.1
                | none => repo), StageOnly := false }) ∧
    (tag ≠ "latest" → tag ≠ "run" →
      refLookup (SetManifest images repo tag m (some h)).images repo tag =
          some { ContentType := m.ContentType, BlobHash := h } ∧
        (∀ r, r ≠ tag →
          refLookup (SetManifest images repo tag m (some h)).images repo r =
            refLookup images repo r) ∧
        ∃ req, (SetManifest images repo tag m (some h)).installReq = some req ∧
          req.StageOnly = true) := by
  obtain ⟨x, y, hcut, -, hy⟩ := cutChar_of_count_one _ _ hrepo
  have hcutRepo : cutRepo repo = some (String.mk x, String.mk y) := by
    unfold cutRepo
    rw [hcut]
  have hcy : countSlash (String.mk y) = 0 := hy
  simp only [SetManifest, hrepo, hcutRepo, hcy, ne_eq, not_true_eq_false,
    if_false, one_ne_zero, not_false_eq_true, if_true, reduceCtorEq]
  refine ⟨?_, ?_, ?_⟩
  · rintro rfl
    refine ⟨?_, ?_, ?_⟩
    · simp [refLookup, updateRef]
    · intro r hr
      rcases himg : images repo with - | refs <;>
        simp [refLookup, updateRef, himg, hr]
    · simp
  · rintro rfl
    refine ⟨?_, ?_, ?_, ?_⟩
    · simp [refLookup, updateRef]
    · simp [refLookup, updateRef]
    · intro r hr1 hr2
      rcases himg : images repo with - | refs <;>
        simp [refLookup, updateRef, himg, hr1, hr2]
    · simp
  · intro h1 h2
    simp only [if_neg h1, if_neg h2]
    refine ⟨?_, ?_, ?_⟩
    · simp [refLookup, updateRef]
    · intro r hr
      rcases himg : images repo with - | refs <;>
        simp [refLookup, updateRef, himg, hr]
    · exact ⟨_, rfl, rfl⟩

/-- C4 (witness): a PUT of tag `latest` to the fresh repo `myapp/web` yields
ref `staged` at the stored manifest, no `run` ref, and a stage-only install
for service `myapp`. -/
theorem c4_setManifest_witness :
    refLookup (SetManifest (fun _ => none) "myapp/web" "latest"
        { ContentType := "ct", Blob := "blob" } (some "hash")).images
        "myapp/web" "staged" =
      some { ContentType := "ct", BlobHash := "hash" } ∧
    refLookup (SetManifest (fun _ => none) "myapp/web" "latest"
        { ContentType := "ct", Blob := "blob" } (some "hash")).images
        "myapp/web" "run" = none ∧
    (SetManifest (fun _ => none) "myapp/web" "latest"
        { ContentType := "ct", Blob := "blob" } (some "hash")).installReq =
      some { ServiceName := "myapp", StageOnly := true } := by
  have h := c4_setManifest (fun _ => none) "myapp/web" "latest"
    { ContentType := "ct", Blob := "blob" } "hash" (by decide)
  have h1 := h.1 rfl
  refine ⟨h1.1, ?_, ?_⟩
  · have := h1.2.1 "run" (by decide)
    rw [this]
    rfl
  · rw [h1.2.2]
    rfl

/-! ### Payload classification (`detect`, `src/pkg/ftdetect/ftdetect.go`
lines 70-109, and `detectDockerCompose`, lines 232-252)

A payload is its byte stream plus the observable outcomes of the two external
parsers the classifier consults: whether `yaml.Unmarshal` into the
`servicesForm` struct succeeds (and, for the spec-side property, whether the
parsed document has a top-level `services` key), whether the esbuild
TypeScript transform succeeds, and whether the ELF architecture check of
`isSameArch` passes (only consulted for native binaries). -/

/-- `ftdetect.FileType`. -/
inductive FileType where
  | Unknown
  | Binary
  | DockerCompose
  | TypeScript
  | Script
  | Zstd
deriving DecidableEq, Repr

/-- A payload byte stream together with the recorded outcomes of the external
parsers. -/
structure Payload where
  bytes : List Nat
  yamlOk : Bool
  yamlHasServices : Bool
  tsOk : Bool
  sameArchOk : Bool
deriving DecidableEq, Repr

/-- `detectBinary` (`src/pkg/ftdetect/ftdetect.go` lines 121-143): read the
first four bytes (failing on shorter input), assemble a little-endian 32-bit
magic number, and compare against the ELF magic and the three Mach-O magics,
also rejecting a binary whose format contradicts the target OS. -/
def detectBinary (goos : String) (bytes : List Nat) : Except String Bool :=
  match bytes with
  | b0 :: b1 :: b2 :: b3 :: _ =>
    let mn := b0 + b1 * 256 + b2 * 65536 + b3 * 16777216
    if mn = 0x464C457F then
      if goos = "darwin" then .error "non-darwin (ELF) binary on darwin system"
      else .ok true
    else if mn = 0xFEEDFACE ∨ mn = 0xFEEDFACF ∨ mn = 0xCAFEBABE then
      if goos ≠ "darwin" then
        .error "darwin binary (Mach-O) on non-darwin system"
      else .ok true
    else .ok false
  | _ => .error "failed to read file"

/-- `detectZstd` (`src/pkg/ftdetect/ftdetect.go` lines 145-157): the zstd
frame magic `28 b5 2f fd`. -/
def detectZstd (bytes : List Nat) : Bool :=
  match bytes with
  | b0 :: b1 :: b2 :: b3 :: _ =>
    b0 = 0x28 ∧ b1 = 0xb5 ∧ b2 = 0x2f ∧ b3 = 0xfd
  | _ => false

/-- `detectScript` (`src/pkg/ftdetect/ftdetect.go` lines 211-227): read two
bytes (failing on shorter input) and test for the shebang `#!`. -/
def detectScript (bytes : List Nat) : Except String Bool :=
  match bytes with
  | b0 :: b1 :: _ => .ok (b0 = 35 ∧ b1 = 33)
  | _ => .error "failed to read file"

/-- `detectDockerCompose` (`src/pkg/ftdetect/ftdetect.go` lines 232-252): the
code unmarshals the bytes into a struct that has a `services` field, returns
false when unmarshalling fails — and returns true whenever it succeeds,
without ever inspecting the `Services` field. -/
def detectDockerCompose (p : Payload) : Bool := p.yamlOk

/-- `detectTypeScript` (`src/pkg/ftdetect/ftdetect.go` lines 254-270): run
the esbuild transform; parse errors are reported as an error (not as
`false`). -/
def detectTypeScript (p : Payload) : Except String Bool :=
  if p.tsOk then .ok true else .error "failed to parse TypeScript"

/-- `detect` (`src/pkg/ftdetect/ftdetect.go` lines 70-109): try binary (with
the architecture check), then zstd, then script, then docker-compose, then
typescript; any step error aborts with `Unknown`. -/
def detect (goos : String) (p : Payload) : Except String FileType :=
  match detectBinary goos p.bytes with
  | .error e => .error e
  | .ok true =>
    if p.sameArchOk then .ok .Binary else .error "architecture mismatch"
  | .ok false =>
    if detectZstd p.bytes then .ok .Zstd
    else
      match detectScript p.bytes with
      | .error e => .error e
      | .ok true => .ok .Script
      | .ok false =>
        if detectDockerCompose p then .ok .DockerCompose
        else
          match detectTypeScript p with
          | .error e => .error e
          | .ok true => .ok .TypeScript
          | .ok false => .error "unable to detect file type"

/-- C6 (failing input): the payload `"foo: 1\n"` (bytes 102 111 111 58 32 49
10) is not a native binary, zstd stream or shebang script, and it parses as
YAML (so `yamlOk = true`) but has no top-level `services` key (recorded as
`yamlHasServices = false`); the classifier nevertheless returns the compose
kind, because `detectDockerCompose` never inspects the `Services` field — in
contradiction with the claim and with the function's own doc comment. -/
theorem c6_detect_code_bug :
    detect "linux"
        { bytes := [102, 111, 111, 58, 32, 49, 10], yamlOk := true,
          yamlHasServices := false, tsOk := true, sameArchOk := true } =
      .ok .DockerCompose := by
  rfl

/-! ### SFTP virtual paths (`Fileread`/`resolvePath`, `src/unnamed/part_017`
lines 54-99; `envFile`, `src/pkg/catch/tty.go` lines 795-799)

`Fileread` resolves the requested virtual path with `resolvePath` and then
opens the resulting host path, so read resolution is the function under
study.  The session is modelled by the SSH user string and the result of
`serviceView` for the parsed service name; the artifact index is modelled by
the result of `Artifacts.Latest(ArtifactEnvFile)` (the only lookup `envFile`
performs — note it ignores its `staged` argument). -/

/-- The part of `db.ServiceView` consulted by `envFile`: the path returned by
`Artifacts.Latest(db.ArtifactEnvFile)`, or `none` when the artifact is
absent. -/
structure ServiceView where
  latestEnvFile : Option String
deriving DecidableEq, Repr

/-- `envFile` (`src/pkg/catch/tty.go` lines 795-799): returns the latest
env-artifact path (the empty string when there is none) and never an error;
the `staged` argument is ignored. -/
def envFile (sv : ServiceView) (staged : Bool) : Except String String :=
  .ok (match sv.latestEnvFile with
    | some p => p
    | none => "")

/-- An SFTP session: the SSH user string and the result of `serviceView` for
the service it names (`none` when the service is unknown). -/
structure SFTPSession where
  connUser : String
  serviceView : Option ServiceView
deriving DecidableEq, Repr

/-- `serviceAndUser` (`src/pkg/catch/catch.go` lines 383-397): parse the SSH
user string as `user@service`, where a string without `@` is the service name
itself; reject an empty user string and a service part containing another
`@`.  Returns `(service, user)`. -/
def serviceAndUser (connUser : String) : Except String (String × String) :=
  if connUser = "" then .error "empty user"
  else
    match cutChar (Char.ofNat 64) connUser.toList with
    | none => .ok (connUser, "")
    | some (user, service) =>
      if countChar (Char.ofNat 64) service ≠ 0 then .error "invalid user"
      else .ok (String.mk service, String.mk user)

/-- `strings.CutPrefix(fullPath, czData)` where `czData` is the five
characters slash-d-a-t-a (`src/unnamed/part_017` line 84): the remainder
after that five-character prefix, or `none` when the path does not start with
it. -/
def cutDataPfx (p : String) : Option String :=
  match p.toList with
  | '/' :: 'd' :: 'a' :: 't' :: 'a' :: rest => some (String.mk rest)
  | _ => none

/-- `strings.HasPrefix(path, czSlash)` for the remainder check
(`src/unnamed/part_017` line 88). -/
def startsWithSlash (p : String) : Bool :=
  match p.toList with
  | c :: _ => c = Char.ofNat 47
  | [] => false

/-- `serviceRootDir` (`src/pkg/catch/catch.go` lines 417-419):
`filepath.Join(ServicesRoot, sn)`, for a root without a trailing slash. -/
def serviceRootDir (servicesRoot sn : String) : String :=
  servicesRoot ++ "/" ++ sn

/-- The body of `resolvePath` (`src/unnamed/part_017` lines 73-98) once
`serviceAndUser` has resolved the service name `sn`: `/env` and `/stage/env`
resolve through `envFile`; everything else must start with the `/data`
prefix, must continue with a slash (or end), must not be the materialized
compose env file `/data/.env`, and resolves to
`filepath.Join(serviceRootDir, fullPath)`. -/
def resolvePathFor (servicesRoot : String) (f : SFTPSession) (sn : String)
    (fullPath : String) : Except String String :=
  if fullPath = "/env" ∨ fullPath = "/stage/env" then
    match f.serviceView with
    | none => .error "service not found"
    | some sv =>
      match envFile sv (decide (fullPath = "/stage/env")) with
      | .error e => .error e
      | .ok ef => .ok ef
  else
    match cutDataPfx fullPath with
    | none => .error "invalid path"
    | some path =>
      if startsWithSlash path = false ∧ path ≠ "" then
        .error "invalid path"
      else if path = "/.env" then .error "invalid path"
      else .ok (serviceRootDir servicesRoot sn ++ fullPath)

/-- `resolvePath` (`src/unnamed/part_017` lines 68-99). -/
def resolvePath (servicesRoot : String) (f : SFTPSession)
    (fullPath : String) : Except String String :=
  match serviceAndUser f.connUser with
  | .error e => .error e
  | .ok su => resolvePathFor servicesRoot f su.1 fullPath

/-- C9 (counterexample): a well-formed session for service `myapp` (which
exists and has an env artifact) cannot read the virtual path `/` at all:
`resolvePath` rejects it, while the claim says such a read succeeds and
returns the service's main artifact. -/
theorem c9_read_counterexample :
    (resolvePath "/var/lib/svc"
      { connUser := "myapp", serviceView := some { latestEnvFile := some "e" } }
      "/").isOk = false := by
  decide

/-- C9 (amended): for a session whose user string is a plain service name,
reads resolve as follows: `/` and `/stage` are rejected as invalid paths;
`/env` and `/stage/env` both resolve to the latest env artifact (the code
does not distinguish a staged env file from the committed one); and
`/data/<rest>` resolves to the file under the service root, except
`/data/.env` which is rejected. -/
theorem c9_read_amended (root sn envPath : String) (sv : ServiceView)
    (hne : sn ≠ "") (hat : countChar (Char.ofNat 64) sn.toList = 0)
    (hsv : sv.latestEnvFile = some envPath) :
    (resolvePath root { connUser := sn, serviceView := some sv } "/").isOk
        = false ∧
    (resolvePath root { connUser := sn, serviceView := some sv }
        "/stage").isOk = false ∧
    resolvePath root { connUser := sn, serviceView := some sv } "/env"
        = .ok envPath ∧
    resolvePath root { connUser := sn, serviceView := some sv } "/stage/env"
        = .ok envPath ∧
    (∀ rest : String,
      resolvePath root { connUser := sn, serviceView := some sv }
          ("/data/" ++ rest) =
        if rest = ".env" then .error "invalid path"
        else .ok (serviceRootDir root sn ++ ("/data/" ++ rest))) := by
  have hsu : serviceAndUser sn = .ok (sn, "") := by
    unfold serviceAndUser
    rw [if_neg hne, cutChar_eq_none_of_count_zero _ _ hat]
  have hres : ∀ p, resolvePath root { connUser := sn, serviceView := some sv } p
      = resolvePathFor root { connUser := sn, serviceView := some sv } sn p := by
    intro p
    unfold resolvePath
    rw [hsu]
  refine ⟨?_, ?_, ?_, ?_, ?_⟩
  · rw [hres]
    rfl
  · rw [hres]
    rfl
  · rw [hres]
    simp [resolvePathFor, envFile, hsv]
  · rw [hres]
    simp [resolvePathFor, envFile, hsv]
  · intro rest
    have hlist : ("/data/" ++ rest).toList =
        '/' :: 'd' :: 'a' :: 't' :: 'a' :: '/' :: rest.data := by
      show ("/data/" ++ rest).data = _
      rw [String.data_append]
      rfl
    have hcd : cutDataPfx ("/data/" ++ rest) =
        some (String.mk ('/' :: rest.data)) := by
      unfold cutDataPfx
      rw [hlist]
      rfl
    have hneq1 : ¬("/data/" ++ rest = "/env") := by
      intro hcontra
      have h2 : ('/' :: 'd' :: 'a' :: 't' :: 'a' :: '/' :: rest.data)
          = ['/', 'e', 'n', 'v'] := by
        rw [← hlist, hcontra]
        rfl
      injection h2 with h2a h3
      injection h3 with h4 h5
      exact absurd h4 (by decide)
    have hneq2 : ¬("/data/" ++ rest = "/stage/env") := by
      intro hcontra
      have h2 : ('/' :: 'd' :: 'a' :: 't' :: 'a' :: '/' :: rest.data)
          = ['/', 's', 't', 'a', 'g', 'e', '/', 'e', 'n', 'v'] := by
        rw [← hlist, hcontra]
        rfl
      injection h2 with h2a h3
      injection h3 with h4 h5
      exact absurd h4 (by decide)
    have hdotenv : (String.mk ('/' :: rest.data) = "/.env") ↔ rest = ".env" := by
      cases rest with
      | mk data =>
        constructor
        · intro hcontra
          have h2 : ('/' :: data) = ['/', '.', 'e', 'n', 'v'] :=
            congrArg String.toList hcontra
          injection h2 with h2a h3
          rw [show (".env" : String) = String.mk ['.', 'e', 'n', 'v'] from rfl]
          exact congrArg String.mk h3
        · rintro hcontra
          rw [show ({ data := data } : String) = String.mk data from rfl,
            show (".env" : String) = String.mk ['.', 'e', 'n', 'v'] from rfl]
            at hcontra
          injection hcontra with h3
          rw [h3]
    have hcond : ¬("/data/" ++ rest = "/env" ∨
        "/data/" ++ rest = "/stage/env") := by
      rintro (hc | hc)
      · exact hneq1 hc
      · exact hneq2 hc
    have hsw : ¬(startsWithSlash (String.mk ('/' :: rest.data)) = false ∧
        String.mk ('/' :: rest.data) ≠ "") := by
      rintro ⟨hc, hc2⟩
      rw [show startsWithSlash (String.mk ('/' :: rest.data)) = true
        from rfl] at hc
      exact Bool.noConfusion hc
    rw [hres]
    unfold resolvePathFor
    rw [if_neg hcond, hcd]
    dsimp only
    rw [if_neg hsw]
    by_cases hr : rest = ".env"
    · rw [if_pos (hdotenv.mpr hr), if_pos hr]
    · rw [if_neg (fun hcontra => hr (hdotenv.mp hcontra)), if_neg hr]

/-- C9 (witness): for service `svc1` with env artifact `envp`, the read of
`/env` resolves to `envp` and the read of `/data/cfg.json` resolves to the
file under the service root. -/
theorem c9_read_amended_witness :
    resolvePath "/var/lib/svc"
        { connUser := "svc1", serviceView := some { latestEnvFile := some "envp" } }
        "/env" = .ok "envp" ∧
    resolvePath "/var/lib/svc"
        { connUser := "svc1", serviceView := some { latestEnvFile := some "envp" } }
        ("/data/" ++ "cfg.json") =
      .ok (serviceRootDir "/var/lib/svc" "svc1" ++ ("/data/" ++ "cfg.json")) := by
  have h := c9_read_amended "/var/lib/svc" "svc1" "envp"
    { latestEnvFile := some "envp" } (by decide) (by decide) rfl
  refine ⟨h.2.2.1, ?_⟩
  have h5 := h.2.2.2.2 "cfg.json"
  rw [if_neg (by decide)] at h5
  exact h5

/-- C10: for every session state and services root, resolving the virtual
path `/data/.env` returns an error, so the compose runner's materialized
`.env` file in the service data directory (written by
`DockerComposeService.command`, `src/unnamed/part_020` lines 90-98) can never
be reached through the `/data/…` SFTP surface. -/
theorem c10_data_env_blocked (root : String) (f : SFTPSession) :
    (resolvePath root f "/data/.env").isOk = false := by
  unfold resolvePath
  cases hsu : serviceAndUser f.connUser with
  | error e => rfl
  | ok p =>
    obtain ⟨sn, u⟩ := p
    rfl

end Yeet
